import Mathlib

/-!
Verification of the `goescpos` ESC/POS printer command encoder.

The Go sources are shallowly embedded: bytes are `Nat` values `< 256`,
byte streams are `List Nat`, the mutable `Printer` struct becomes the
`PState` record passed and returned explicitly, and every `Write` call
becomes an appended byte list.  Go machine integers are modelled as
`Nat`/`Int` with explicit `% 256`, `% 65536`, … where Go performs a
narrowing conversion.  Fallible Go code (a `panic`, or a returned
non-nil `error`) is modelled with `Option` and an explicit error flag.
-/

namespace Goescpos

/-- UTF-8 encoding of a Unicode code point, as produced by Go's
`fmt.Sprintf("%c", v)` for a valid rune `v`.  All state toggles stored in
the printer are bytes, so in reachable states only the first branch fires. -/
def utf8Nat (n : Nat) : List Nat :=
  if n < 0x80 then [n]
  else if n < 0x800 then [0xC0 ||| (n >>> 6), 0x80 ||| (n % 64)]
  else if n < 0x10000 then
    [0xE0 ||| (n >>> 12), 0x80 ||| ((n >>> 6) % 64), 0x80 ||| (n % 64)]
  else
    [0xF0 ||| (n >>> 18), 0x80 ||| ((n >>> 12) % 64), 0x80 ||| ((n >>> 6) % 64),
     0x80 ||| (n % 64)]

/-- Go's `fmt.Sprintf("%c", i)` on an `int`: the argument is first narrowed to
`rune` (= `int32`, two's complement wrap), then UTF-8 encoded; invalid code
points (negative, beyond U+10FFFF, or surrogates) become U+FFFD. -/
def goRuneBytes (i : Int) : List Nat :=
  let r : Int := (i + 2147483648) % 4294967296 - 2147483648
  if 0 ≤ r ∧ r ≤ 0x10FFFF ∧ ¬(0xD800 ≤ r ∧ r ≤ 0xDFFF) then utf8Nat r.toNat
  else [0xEF, 0xBF, 0xBD]

/-- Go conversion `byte(i)` of an `int`: the low 8 bits, i.e. `i mod 256`. -/
def goByte (i : Int) : Nat := (i % 256).toNat

/-- Go conversion `uint16(i)` of an `int`: `i mod 2^16`. -/
def goU16 (i : Int) : Nat := (i % 65536).toNat

/-- UTF-8 bytes of a string, as Go sees it: `len`, indexing and slicing on
Go strings are all byte-based, so every length test and index on a
parameter value is taken on this list. -/
def strBytes (s : String) : List Nat := s.data.flatMap (fun c => utf8Nat c.toNat)

/-- Value of a digit string, most significant digit first. -/
def digitsVal (ds : List Char) : Nat :=
  ds.foldl (fun a c => a * 10 + (c.toNat - 48)) 0

/-- Go's `strconv.Atoi`: optional sign, then one or more decimal digits and
nothing else; values outside the `int64` range are an error (`ErrRange`),
which callers in this repository treat the same as a syntax error. -/
def goAtoi (s : String) : Option Int :=
  let p : Int × List Char :=
    match s.data with
    | '+' :: r => (1, r)
    | '-' :: r => (-1, r)
    | r => (1, r)
  if p.2 ≠ [] ∧ p.2.all (fun c => decide ('0' ≤ c ∧ c ≤ '9')) then
    let v : Int := p.1 * digitsVal p.2
    if -9223372036854775808 ≤ v ∧ v ≤ 9223372036854775807 then some v else none
  else none

/-- ASCII decimal digits of `n`, as printed by Go's `%v` for an `int ≥ 0`. -/
def decAscii (n : Nat) : List Nat := (Nat.toDigits 10 n).map Char.toNat

/-- Value of a little-endian base-256 digit list (spec side, used to state
what `intLowHigh` encodes). -/
def fromLE (bs : List Nat) : Nat := bs.foldr (fun b acc => b + 256 * acc) 0

/-- Model of `raster.go` `intLowHigh`: emit `outBytes` bytes of `inpNumber`, least
significant first, by repeated `% 256` / `/ 256`.  Out-of-range inputs are
only logged in Go; the truncated encoding is still returned. -/
def intLowHigh (inpNumber : Nat) : (outBytes : Nat) → List Nat
  | 0 => []
  | k + 1 => inpNumber % 256 :: intLowHigh (inpNumber / 256) k

/-- Constant `gs8lMaxY` of `raster.go`, the maximum line count per graphics chunk. -/
def gs8lMaxY : Nat := 1662

/-- The chunk decomposition performed by the `graphics` loop of
`Printer.Raster`: starting at row `l`, each chunk takes
`min gs8lMaxY (height - l)` lines until all rows are consumed.
Each element is `(startLine, lineCount)`. -/
def chunksFrom (height l : Nat) : List (Nat × Nat) :=
  if _h : l < height then
    let lines := min gs8lMaxY (height - l)
    (l, lines) :: chunksFrom height (l + lines)
  else []
termination_by height - l
decreasing_by
  have h1 : 0 < min gs8lMaxY (height - l) := by
    have : 0 < gs8lMaxY := by decide
    omega
  omega

/-- The chunks of the whole image (`l` starts at `0`). -/
def rasterChunks (height : Nat) : List (Nat × Nat) := chunksFrom height 0

/-- The byte stream written by the `graphics` branch of `Printer.Raster`
from row `l` on: for each chunk, the `GS 8 L` header (with the Go `byte(x)`
/ `x >> k` narrowing conversions written out), the raw pixel slice
`imgBw[l*lineWidth : (l+lines)*lineWidth]`, and the `GS ( L` fn 50 flush. -/
def rasterGraphicsFrom (width lineWidth : Nat) (imgBw : List Nat)
    (height l : Nat) : List Nat :=
  if _h : l < height then
    let lines := min gs8lMaxY (height - l)
    let f112P := 10 + lines * lineWidth
    ([0x1D, 0x38, 0x4C,
      f112P % 256, (f112P >>> 8) % 256, (f112P >>> 16) % 256, (f112P >>> 24) % 256,
      0x30, 0x70, 0x30,
      0x01, 0x01,
      0x31,
      width % 256, (width >>> 8) % 256,
      lines % 256, (lines >>> 8) % 256]
     ++ (imgBw.drop (l * lineWidth)).take ((l + lines) * lineWidth - l * lineWidth)
     ++ [0x1D, 0x28, 0x4C, 0x02, 0x00, 0x30, 0x32])
    ++ rasterGraphicsFrom width lineWidth imgBw height (l + lines)
  else []
termination_by height - l
decreasing_by
  have h1 : 0 < min gs8lMaxY (height - l) := by
    have : 0 < gs8lMaxY := by decide
    omega
  omega

/-- Model of `Printer.Raster`: dispatch on the printing type.  In `bitImage` mode the
width is first converted to bytes (`(width+7) >> 3`); in `graphics` mode the
chunked loop runs.  Any other type writes nothing. -/
def Raster (width height lineWidth : Nat) (imgBw : List Nat)
    (printingType : String) : List Nat :=
  if printingType = "bitImage" then
    [0x1D, 0x76, 0x30, 0x00]
      ++ intLowHigh ((width + 7) >>> 3) 2 ++ intLowHigh height 2 ++ imgBw
  else if printingType = "graphics" then
    rasterGraphicsFrom width lineWidth imgBw height 0
  else []

/-- Spec-side 2-byte little-endian encoding. -/
def le2 (n : Nat) : List Nat := [n % 256, n / 256 % 256]

/-- Spec-side 4-byte little-endian encoding. -/
def le4 (n : Nat) : List Nat :=
  [n % 256, n / 256 % 256, n / 65536 % 256, n / 16777216 % 256]

/-- The flush command emitted after every graphics chunk. -/
def flushCmd : List Nat := [0x1D, 0x28, 0x4C, 0x02, 0x00, 0x30, 0x32]

/-- The byte layout of one graphics chunk as the specification describes it:
`GS 8 L`, the 4-byte little-endian payload length `10 + lineCount*bytesPerLine`,
fixed function-selector/zoom/color bytes, width and line count as 2-byte
little-endian, the raw pixel rows, then the flush command. -/
def chunkBytes (width lineWidth : Nat) (imgBw : List Nat) (c : Nat × Nat) :
    List Nat :=
  [0x1D, 0x38, 0x4C] ++ le4 (10 + c.2 * lineWidth)
    ++ [0x30, 0x70, 0x30, 0x01, 0x01, 0x31]
    ++ le2 width ++ le2 c.2
    ++ (imgBw.drop (c.1 * lineWidth)).take (c.2 * lineWidth)
    ++ flushCmd

/-! ### The printer state and the command encoder (`escpos.go`)

The Go `Printer` struct holds a byte sink plus the mutable state below;
every field is a Go `byte`.  Methods become functions from `PState` to a
new `PState` and the list of bytes written to the sink. -/

structure PState where
  width : Nat
  height : Nat
  underline : Nat
  emphasize : Nat
  upsidedown : Nat
  rotate : Nat
  reverse : Nat
  smooth : Nat
deriving DecidableEq

/-- Model of `NewPrinter`: font metrics start at 1×1, all toggles at the Go zero
value 0. -/
def initState : PState :=
  { width := 1, height := 1, underline := 0, emphasize := 0, upsidedown := 0,
    rotate := 0, reverse := 0, smooth := 0 }

/-- Model of `Printer.Reset`: sets every state field back to its default; writes
nothing. -/
def Reset (_ : PState) : PState := initState

/-- Model of `Printer.Init`: reset state, then write the initialize code `ESC @`. -/
def Init (s : PState) : PState × List Nat := (Reset s, [0x1B, 0x40])

/-- Go byte subtraction `x - 1` (wraps modulo 256). -/
def bsub1 (x : Nat) : Nat := (x + 255) % 256

/-- Model of `Printer.SendFontSize`: `GS !` followed by `((width-1)<<4)|(height-1)`
computed in Go byte arithmetic and rendered with `%c`. -/
def SendFontSize (s : PState) : List Nat :=
  [0x1D, 0x21] ++ utf8Nat ((bsub1 s.width * 16) % 256 ||| bsub1 s.height)

/-- Model of `Printer.SetFontSize`: only `1 ≤ width, height ≤ 8` updates the state
and sends the command; anything else is merely logged in Go. -/
def SetFontSize (width height : Nat) (s : PState) : PState × List Nat :=
  if 0 < width ∧ 0 < height ∧ width ≤ 8 ∧ height ≤ 8 then
    let s' := { s with width := width, height := height }
    (s', SendFontSize s')
  else (s, [])

/-- Model of `Printer.SendUnderline`: `ESC -` then the stored toggle via `%c`. -/
def SendUnderline (s : PState) : List Nat := [0x1B, 0x2D] ++ utf8Nat s.underline

/-- Model of `Printer.SendEmphasize`: `ESC G`. -/
def SendEmphasize (s : PState) : List Nat := [0x1B, 0x47] ++ utf8Nat s.emphasize

/-- Model of `Printer.SendUpsidedown`: `ESC {`. -/
def SendUpsidedown (s : PState) : List Nat := [0x1B, 0x7B] ++ utf8Nat s.upsidedown

/-- Model of `Printer.SendRotate`: `ESC R`. -/
def SendRotate (s : PState) : List Nat := [0x1B, 0x52] ++ utf8Nat s.rotate

/-- Model of `Printer.SendReverse`: `GS B`. -/
def SendReverse (s : PState) : List Nat := [0x1D, 0x42] ++ utf8Nat s.reverse

/-- Model of `Printer.SendSmooth`: `ESC b`. -/
def SendSmooth (s : PState) : List Nat := [0x1B, 0x62] ++ utf8Nat s.smooth

/-- Model of `Printer.SetUnderline`: stores `v` unconditionally, then sends. -/
def SetUnderline (v : Nat) (s : PState) : PState × List Nat :=
  let s' := { s with underline := v }
  (s', SendUnderline s')

/-- Model of `Printer.SetEmphasize`: stores `v` unconditionally, then sends. -/
def SetEmphasize (v : Nat) (s : PState) : PState × List Nat :=
  let s' := { s with emphasize := v }
  (s', SendEmphasize s')

/-- Model of `Printer.SetUpsidedown`: stores `v` unconditionally, then sends. -/
def SetUpsidedown (v : Nat) (s : PState) : PState × List Nat :=
  let s' := { s with upsidedown := v }
  (s', SendUpsidedown s')

/-- Model of `Printer.SetRotate`: stores `v` unconditionally, then sends. -/
def SetRotate (v : Nat) (s : PState) : PState × List Nat :=
  let s' := { s with rotate := v }
  (s', SendRotate s')

/-- Model of `Printer.SetReverse`: stores `v` unconditionally, then sends. -/
def SetReverse (v : Nat) (s : PState) : PState × List Nat :=
  let s' := { s with reverse := v }
  (s', SendReverse s')

/-- Model of `Printer.SetSmooth`: stores `v` unconditionally, then sends. -/
def SetSmooth (v : Nat) (s : PState) : PState × List Nat :=
  let s' := { s with smooth := v }
  (s', SendSmooth s')

/-- Model of `Printer.SetAlign`: stateless; unrecognized values fall back to 0. -/
def SetAlign (align : String) : List Nat :=
  let a : Nat :=
    if align = "left" then 0
    else if align = "center" then 1
    else if align = "right" then 2
    else 0
  [0x1B, 0x61] ++ utf8Nat a

/-- Model of `Printer.SetLang`: stateless; unrecognized values fall back to 0. -/
def SetLang (lang : String) : List Nat :=
  let l : Nat :=
    if lang = "en" then 0
    else if lang = "fr" then 1
    else if lang = "de" then 2
    else if lang = "uk" then 3
    else if lang = "da" then 4
    else if lang = "sv" then 5
    else if lang = "it" then 6
    else if lang = "es" then 7
    else if lang = "ja" then 8
    else if lang = "no" then 9
    else 0
  [0x1B, 0x52] ++ utf8Nat l

/-- Model of `Printer.SetFont`: stateless; unrecognized values fall back to font A. -/
def SetFont (font : String) : List Nat :=
  let f : Nat :=
    if font = "A" then 0
    else if font = "B" then 1
    else if font = "C" then 2
    else 0
  [0x1B, 0x4D] ++ utf8Nat f

/-- Model of `Printer.SendMoveX` on a `uint16`. -/
def SendMoveX (x : Nat) : List Nat := [0x1B, 0x24, x % 256, x / 256]

/-- Model of `Printer.SendMoveY` on a `uint16`. -/
def SendMoveY (y : Nat) : List Nat := [0x1D, 0x24, y % 256, y / 256]

/-- Model of `Printer.FormfeedN`: `ESC d` then the count rendered with `%c`. -/
def FormfeedN (n : Int) : List Nat := [0x1B, 0x64] ++ goRuneBytes n

/-- Model of `Printer.Linefeed`. -/
def Linefeed : List Nat := [0x0A]

/-- Formatting parameters: the Go `map[string]string`, modelled as an
association list queried with `List.lookup` (keys are unique in a map). -/
def Params : Type := List (String × String)

/-- Model of `Printer.Text`, alignment step: `params["align"]`. -/
def stepAlign (ps : Params) (q : PState × List Nat) : PState × List Nat :=
  match List.lookup "align" ps with
  | some a => (q.1, q.2 ++ SetAlign a)
  | none => q

/-- Model of `Printer.Text`, language step: `params["lang"]`. -/
def stepLang (ps : Params) (q : PState × List Nat) : PState × List Nat :=
  match List.lookup "lang" ps with
  | some l => (q.1, q.2 ++ SetLang l)
  | none => q

/-- Model of `Printer.Text`, one boolean-flag step: a present key whose value is
`"true"` or `"1"` invokes the given setter with argument 1. -/
def stepFlag (ps : Params) (key : String) (set : Nat → PState → PState × List Nat)
    (q : PState × List Nat) : PState × List Nat :=
  match List.lookup key ps with
  | some v =>
    if v = "true" ∨ v = "1" then
      let r := set 1 q.1
      (r.1, q.2 ++ r.2)
    else q
  | none => q

/-- Bytes emitted for the one-byte string `font[5:6]` in `Printer.Text`'s
font branch, i.e. `SetFont(strings.ToUpper(string of byte b))`.  For an
ASCII byte, `strings.ToUpper` uppercases it and `SetFont`'s switch runs on
the resulting letter.  A byte ≥ 0x80 is an invalid one-byte UTF-8 string:
`strings.Map` decodes it as `U+FFFD`, whose upper case is itself, so the
string is returned unchanged and `SetFont`'s switch necessarily falls to
the default font code 0. -/
def stepFontCmd (b : Nat) : List Nat :=
  if b < 0x80 then SetFont (Char.toUpper (Char.ofNat b)).toString
  else [0x1B, 0x4D] ++ utf8Nat 0

/-- Model of `Printer.Text`, font step: `SetFont(strings.ToUpper(font[5:6]))`.
Go slices the value's bytes and panics (`none`) when the value is shorter
than 6 bytes — both the length test and the index are on UTF-8 bytes, not
characters. -/
def stepFont (ps : Params) (q : PState × List Nat) :
    Option (PState × List Nat) :=
  match List.lookup "font" ps with
  | some f =>
    if 6 ≤ (strBytes f).length then
      some (q.1, q.2 ++ stepFontCmd ((strBytes f).getD 5 0))
    else none
  | none => some q

/-- Model of `Printer.Text`, double-width step: `SetFontSize(2, p.height)`. -/
def stepDw (ps : Params) (q : PState × List Nat) : PState × List Nat :=
  match List.lookup "dw" ps with
  | some v =>
    if v = "true" ∨ v = "1" then
      let r := SetFontSize 2 q.1.height q.1
      (r.1, q.2 ++ r.2)
    else q
  | none => q

/-- Model of `Printer.Text`, double-height step: `SetFontSize(p.width, 2)`. -/
def stepDh (ps : Params) (q : PState × List Nat) : PState × List Nat :=
  match List.lookup "dh" ps with
  | some v =>
    if v = "true" ∨ v = "1" then
      let r := SetFontSize q.1.width 2 q.1
      (r.1, q.2 ++ r.2)
    else q
  | none => q

/-- Everything `Printer.Text` does before the numeric parameters, in source
order: align, lang, smooth, em, ul, reverse, rotate, font, dw, dh. -/
def textPre (ps : Params) (s : PState) : Option (PState × List Nat) :=
  let q1 := stepAlign ps (s, [])
  let q2 := stepLang ps q1
  let q3 := stepFlag ps "smooth" SetSmooth q2
  let q4 := stepFlag ps "em" SetEmphasize q3
  let q5 := stepFlag ps "ul" SetUnderline q4
  let q6 := stepFlag ps "reverse" SetReverse q5
  let q7 := stepFlag ps "rotate" SetRotate q6
  match stepFont ps q7 with
  | some q8 => some (stepDh ps (stepDw ps q8))
  | none => none

/-- Numeric-parameter action for `params["width"]`:
`SetFontSize(byte(i), p.height)`. -/
def actWidth (i : Int) (s : PState) : PState × List Nat :=
  SetFontSize (goByte i) s.height s

/-- Numeric-parameter action for `params["height"]`:
`SetFontSize(p.width, byte(i))`. -/
def actHeight (i : Int) (s : PState) : PState × List Nat :=
  SetFontSize s.width (goByte i) s

/-- Numeric-parameter action for `params["x"]`: `SendMoveX(uint16(i))`. -/
def actX (i : Int) (s : PState) : PState × List Nat := (s, SendMoveX (goU16 i))

/-- Numeric-parameter action for `params["y"]`: `SendMoveY(uint16(i))`. -/
def actY (i : Int) (s : PState) : PState × List Nat := (s, SendMoveY (goU16 i))

/-- One numeric parameter of `Printer.Text`: when present, `strconv.Atoi`
is applied; a parse failure returns the error (`true`) with nothing further
written; on success the action runs. -/
def numApply (ps : Params) (key : String) (act : Int → PState → PState × List Nat)
    (q : PState × List Nat) : (PState × List Nat) × Bool :=
  match List.lookup key ps with
  | some v =>
    match goAtoi v with
    | some i =>
      let r := act i q.1
      ((r.1, q.2 ++ r.2), false)
    | none => (q, true)
  | none => (q, false)

/-- The numeric parameters of `Printer.Text` in source order (`width`,
`height`, `x`, `y`), each aborting the rest on a parse error. -/
def numChain (ps : Params) (q : PState × List Nat) : (PState × List Nat) × Bool :=
  let r1 := numApply ps "width" actWidth q
  if r1.2 then (r1.1, true) else
  let r2 := numApply ps "height" actHeight r1.1
  if r2.2 then (r2.1, true) else
  let r3 := numApply ps "x" actX r2.1
  if r3.2 then (r3.1, true) else
  numApply ps "y" actY r3.1

/-- The numeric parameters of `Printer.Text` with their actions, in the
source's processing order. -/
def numKeys : List (String × (Int → PState → PState × List Nat)) :=
  [("width", actWidth), ("height", actHeight), ("x", actX), ("y", actY)]

/-- Sequential processing of a list of numeric parameters, stopping at the
first parse error exactly as the chain of early returns in `Printer.Text`
does; used to state which commands are emitted before an abort. -/
def numSeq : List (String × (Int → PState → PState × List Nat)) → Params →
    (PState × List Nat) → (PState × List Nat) × Bool
  | [], _, q => (q, false)
  | (key, act) :: rest, ps, q =>
    let r := numApply ps key act q
    if r.2 then (r.1, true) else numSeq rest ps r.1

/-- Model of `Printer.Text`: parameter processing, then (absent any error) the text
itself.  `render` stands for the external text-rasterization pipeline
(`WriteString` → `PrintTextImage`), an out-of-scope collaborator per the
spec; it only contributes sink bytes, never touches `PState`.  The outer
`Option` is a Go panic (`font` value shorter than 6 bytes); the `Bool`
is the returned `error` (`true` = non-nil). -/
def Text (ps : Params) (text : String) (render : String → List Nat)
    (s : PState) : Option (PState × List Nat × Bool) :=
  match textPre ps s with
  | none => none
  | some q =>
    let r := numChain ps q
    if r.2 then some (r.1.1, r.1.2, true)
    else some (r.1.1, r.1.2 ++ (if 0 < text.length then render text else []), false)

/-- Model of `Printer.Feed`: optional `line` (formfeed) and `unit` (move-y) numeric
parameters, each aborting with an error on a parse failure; then a line
feed, a state reset, and a re-emission of every stateful command from the
fresh state (`SendUnderline` twice, as in the source). -/
def Feed (ps : Params) (s : PState) : PState × List Nat × Bool :=
  let o1 : Option (List Nat) :=
    match List.lookup "line" ps with
    | some v =>
      match goAtoi v with
      | some i => some (FormfeedN i)
      | none => none
    | none => some []
  match o1 with
  | none => (s, [], true)
  | some out1 =>
    let o2 : Option (List Nat) :=
      match List.lookup "unit" ps with
      | some v =>
        match goAtoi v with
        | some i => some (SendMoveY (goU16 i))
        | none => none
      | none => some []
    match o2 with
    | none => (s, out1, true)
    | some out2 =>
      let s' := Reset s
      (s', out1 ++ out2 ++ Linefeed
        ++ SendEmphasize s' ++ SendRotate s' ++ SendSmooth s' ++ SendReverse s'
        ++ SendUnderline s' ++ SendUpsidedown s' ++ SendFontSize s'
        ++ SendUnderline s', false)

/-- Model of `Printer.Barcode`: the one-byte symbology code for the formats the
switch recognizes; every other format contributes no code byte. -/
def barcodeCode (format : Int) : List Nat :=
  if format = 0 then [0x00]
  else if format = 1 then [0x01]
  else if format = 2 then [0x02]
  else if format = 3 then [0x03]
  else if format = 4 then [0x04]
  else if format = 73 then [0x49]
  else []

/-- Model of `Printer.Barcode`: reset, center alignment, then — only for
`format > 69` — a length-prefixed `GS k` framing (the length printed as
decimal ASCII by `%v`), or — only for `format < 69` — a NUL-terminated
`GS k` framing; finally the raw payload is written once more
unconditionally.  `barcode` is the argument string's bytes. -/
def Barcode (barcode : List Nat) (format : Int) (s : PState) :
    PState × List Nat :=
  let s1 := Reset s
  let out0 := SetAlign "center"
  let framing : List Nat :=
    if 69 < format then
      [0x1D, 0x6B] ++ barcodeCode format ++ decAscii barcode.length ++ barcode
    else if format < 69 then
      [0x1D, 0x6B] ++ barcodeCode format ++ barcode ++ [0x00]
    else []
  (s1, out0 ++ framing ++ barcode)

/-- Printer states reachable from `NewPrinter` through the exported,
state-relevant operations. -/
inductive Reachable : PState → Prop where
  | new : Reachable initState
  | reset {s} : Reachable s → Reachable (Reset s)
  | initc {s} : Reachable s → Reachable (Init s).1
  | setFontSize {s} (w h : Nat) : Reachable s → Reachable (SetFontSize w h s).1
  | setUnderline {s} (v : Nat) : Reachable s → Reachable (SetUnderline v s).1
  | setEmphasize {s} (v : Nat) : Reachable s → Reachable (SetEmphasize v s).1
  | setUpsidedown {s} (v : Nat) : Reachable s → Reachable (SetUpsidedown v s).1
  | setRotate {s} (v : Nat) : Reachable s → Reachable (SetRotate v s).1
  | setReverse {s} (v : Nat) : Reachable s → Reachable (SetReverse v s).1
  | setSmooth {s} (v : Nat) : Reachable s → Reachable (SetSmooth v s).1
  | text {s s' out e} (ps : Params) (t : String) (render : String → List Nat) :
      Reachable s → Text ps t render s = some (s', out, e) → Reachable s'
  | feed {s} (ps : Params) : Reachable s → Reachable (Feed ps s).1
  | barcode {s} (bc : List Nat) (format : Int) : Reachable s →
      Reachable (Barcode bc format s).1

/-- The font-metrics invariant of claim C7. -/
def FontInv (s : PState) : Prop :=
  1 ≤ s.width ∧ s.width ≤ 8 ∧ 1 ≤ s.height ∧ s.height ≤ 8

/-- A params map on which `Printer.Text`'s font step cannot panic: any
`font` value present is at least 6 UTF-8 bytes long (so the byte slice
`font[5:6]` is legal). -/
def fontOk (ps : Params) : Prop :=
  ∀ f, List.lookup "font" ps = some f → 6 ≤ (strBytes f).length

/-- The params map carries a malformed numeric parameter: one of the four
numeric keys is present with a value `strconv.Atoi` rejects. -/
def malformedNumeric (ps : Params) : Prop :=
  ∃ k v, (k = "width" ∨ k = "height" ∨ k = "x" ∨ k = "y")
    ∧ List.lookup k ps = some v ∧ goAtoi v = none

/-! ### Lemmas about the chunk decomposition (claims C1, C2) -/

theorem chunksFrom_sum (height l : Nat) :
    ((chunksFrom height l).map Prod.snd).sum = height - l := by
  induction l using chunksFrom.induct height with
  | case1 x hx lines ih =>
    have hl : lines = min gs8lMaxY (height - x) := rfl
    rw [chunksFrom, dif_pos hx]
    simp only [List.map_cons, List.sum_cons]
    rw [ih, hl]
    simp only [gs8lMaxY]
    omega
  | case2 x hx => rw [chunksFrom, dif_neg hx]; simp; omega

theorem chunksFrom_length (height l : Nat) :
    (chunksFrom height l).length = (height - l + (gs8lMaxY - 1)) / gs8lMaxY := by
  induction l using chunksFrom.induct height with
  | case1 x hx lines ih =>
    have hl : lines = min gs8lMaxY (height - x) := rfl
    rw [chunksFrom, dif_pos hx]
    simp only [List.length_cons]
    rw [ih, hl]
    simp only [gs8lMaxY]
    omega
  | case2 x hx => rw [chunksFrom, dif_neg hx]; simp [gs8lMaxY]; omega

theorem chunksFrom_bounds (height l : Nat) :
    ∀ c ∈ chunksFrom height l, 0 < c.2 ∧ c.2 ≤ gs8lMaxY := by
  induction l using chunksFrom.induct height with
  | case1 x hx lines ih =>
    rw [chunksFrom, dif_pos hx]
    intro c hc
    rcases List.mem_cons.mp hc with h1 | h1
    · subst h1
      simp only [gs8lMaxY]
      omega
    · exact ih c h1
  | case2 x hx => rw [chunksFrom, dif_neg hx]; intro c hc; simp at hc

theorem chunksFrom_cover (height l : Nat) :
    (chunksFrom height l).flatMap (fun c => List.range' c.1 c.2) =
      List.range' l (height - l) := by
  induction l using chunksFrom.induct height with
  | case1 x hx lines ih =>
    have hl : lines = min gs8lMaxY (height - x) := rfl
    rw [chunksFrom, dif_pos hx]
    simp only [List.flatMap_cons]
    rw [ih, List.range'_append_1]
    congr 1
    rw [hl]
    simp only [gs8lMaxY]
    omega
  | case2 x hx => rw [chunksFrom, dif_neg hx]; simp; omega

theorem rasterGraphicsFrom_eq_chunks (width lineWidth : Nat) (imgBw : List Nat)
    (height l : Nat) :
    rasterGraphicsFrom width lineWidth imgBw height l =
      (chunksFrom height l).flatMap (chunkBytes width lineWidth imgBw) := by
  induction l using chunksFrom.induct height with
  | case1 x hx lines ih =>
    rw [chunksFrom, dif_pos hx, rasterGraphicsFrom, dif_pos hx]
    simp only [List.flatMap_cons]
    rw [ih]
    congr 1
    simp only [chunkBytes, le2, le4, flushCmd, Nat.shiftRight_eq_div_pow]
    norm_num
    congr 2
    rw [Nat.add_mul]
    omega
  | case2 x hx => rw [chunksFrom, dif_neg hx, rasterGraphicsFrom, dif_neg hx]; simp

/-! ### Claim theorems C1-C3 -/

/-- C1: for every height > 0, the chunked graphics mode of `Raster` splits
the rows into `ceil(height / 1662)` chunks, in increasing row order, each
with `0 < lineCount ≤ 1662`, the line counts summing to `height`, and the
row ranges exactly partitioning `[0, height)` (no gaps, no overlaps). -/
theorem raster_chunk_partition (height : Nat) (hpos : 0 < height) :
    (rasterChunks height).length = (height + 1661) / 1662
    ∧ ((rasterChunks height).map Prod.snd).sum = height
    ∧ (∀ c ∈ rasterChunks height, 0 < c.2 ∧ c.2 ≤ 1662)
    ∧ (rasterChunks height).flatMap (fun c => List.range' c.1 c.2) =
        List.range' 0 height := by
  refine ⟨?_, ?_, ?_, ?_⟩
  · have h := chunksFrom_length height 0
    simpa [rasterChunks, gs8lMaxY] using h
  · simpa [rasterChunks] using chunksFrom_sum height 0
  · simpa [rasterChunks, gs8lMaxY] using chunksFrom_bounds height 0
  · simpa [rasterChunks] using chunksFrom_cover height 0

/-- Witness for C1, also checking the spec's end-to-end 512×2000 scenario:
exactly 2 chunks, rows `[0,1662)` and `[1662,2000)` with line count 338. -/
theorem raster_chunk_partition_witness :
    ((rasterChunks 2000).length = (2000 + 1661) / 1662
      ∧ ((rasterChunks 2000).map Prod.snd).sum = 2000
      ∧ (∀ c ∈ rasterChunks 2000, 0 < c.2 ∧ c.2 ≤ 1662)
      ∧ (rasterChunks 2000).flatMap (fun c => List.range' c.1 c.2) =
          List.range' 0 2000)
    ∧ rasterChunks 2000 = [(0, 1662), (1662, 338)] := by
  constructor
  · exact raster_chunk_partition 2000 (by decide)
  · rw [rasterChunks, chunksFrom]
    norm_num [gs8lMaxY, Nat.min_def]
    rw [chunksFrom]
    norm_num [gs8lMaxY, Nat.min_def]
    rw [chunksFrom]
    norm_num

/-- C2: in chunked graphics mode, the byte stream written by `Raster` is,
chunk by chunk, exactly `GS 8 L`, the 4-byte little-endian payload length
`10 + lineCount*bytesPerLine`, the fixed `0x30 0x70 0x30, 0x01 0x01, 0x31`
selector/zoom/color bytes, the width and line count as 2-byte little-endian,
the raw pixel slice of the chunk's rows, then the flush command. -/
theorem raster_graphics_chunk_layout (width height lineWidth : Nat)
    (imgBw : List Nat) :
    Raster width height lineWidth imgBw "graphics" =
      (rasterChunks height).flatMap (chunkBytes width lineWidth imgBw) := by
  rw [Raster, if_neg (by decide), if_pos rfl, rasterChunks]
  exact rasterGraphicsFrom_eq_chunks width lineWidth imgBw height 0

/-- C3: `intLowHigh n k` for `k ∈ [1,4]` returns exactly `k` bytes, the
little-endian base-256 digits of `n mod 256^k`; oversized inputs are
truncated, not rejected. -/
theorem intLowHigh_le_encoding (n k : Nat) (h1 : 1 ≤ k) (h2 : k ≤ 4) :
    (intLowHigh n k).length = k
    ∧ fromLE (intLowHigh n k) = n % 256 ^ k
    ∧ ∀ b ∈ intLowHigh n k, b < 256 := by
  refine ⟨?_, ?_, ?_⟩
  · clear h1 h2
    induction k generalizing n with
    | zero => rfl
    | succ m ih => simp [intLowHigh, ih]
  · clear h1 h2
    induction k generalizing n with
    | zero => simp [intLowHigh, fromLE, Nat.mod_one]
    | succ m ih =>
      simp only [intLowHigh, fromLE, List.foldr_cons]
      have hx : fromLE (intLowHigh (n / 256) m) = n / 256 % 256 ^ m := ih (n / 256)
      simp only [fromLE] at hx
      rw [hx, pow_succ, mul_comm (256 ^ m) 256, Nat.mod_mul]
  · clear h1 h2
    induction k generalizing n with
    | zero => simp [intLowHigh]
    | succ m ih =>
      simp only [intLowHigh]
      intro b hb
      rcases List.mem_cons.mp hb with h | h
      · subst h; exact Nat.mod_lt _ (by decide)
      · exact ih (n / 256) b h

/-- Witness for C3 at the spec's own examples: `encode(300,2) = [0x2C,0x01]`,
`encode(0,3)` is three zero bytes, and an oversized input is truncated. -/
theorem intLowHigh_le_encoding_witness :
    ((intLowHigh 300 2).length = 2
      ∧ fromLE (intLowHigh 300 2) = 300 % 256 ^ 2
      ∧ ∀ b ∈ intLowHigh 300 2, b < 256)
    ∧ intLowHigh 300 2 = [0x2C, 0x01]
    ∧ intLowHigh 0 3 = [0, 0, 0]
    ∧ intLowHigh 65536 2 = [0, 0] := by
  exact ⟨intLowHigh_le_encoding 300 2 (by decide) (by decide), by decide, by decide,
    by decide⟩

/-! ### Claim theorems C4, C5, C8, C9, C10 -/

/-- C4: `SetFontSize` with both arguments in `[1,8]` stores them and emits
`GS !` with final byte `((width-1) <<< 4) ||| (height-1)`; with either
argument outside `[1,8]` the state is unchanged and nothing is emitted. -/
theorem setFontSize_behavior (w h : Nat) (s : PState) :
    (0 < w ∧ 0 < h ∧ w ≤ 8 ∧ h ≤ 8 →
      SetFontSize w h s =
        ({ s with width := w, height := h },
          [0x1D, 0x21, ((w - 1) <<< 4) ||| (h - 1)]))
    ∧ (¬(0 < w ∧ 0 < h ∧ w ≤ 8 ∧ h ≤ 8) → SetFontSize w h s = (s, [])) := by
  constructor
  · intro hc
    rw [SetFontSize, if_pos hc]
    have hw1 : bsub1 w = w - 1 := by unfold bsub1; omega
    have hh1 : bsub1 h = h - 1 := by unfold bsub1; omega
    have hw2 : (bsub1 w * 16) % 256 = (w - 1) * 16 := by rw [hw1]; omega
    have hlt : (w - 1) * 16 ||| (h - 1) < 128 := by
      have l1 : (w - 1) * 16 < 2 ^ 7 := by omega
      have l2 : h - 1 < 2 ^ 7 := by omega
      exact Nat.or_lt_two_pow l1 l2
    simp only [SendFontSize, hw2, hh1, utf8Nat, if_pos hlt]
    rw [Nat.shiftLeft_eq]
    norm_num
  · intro hc
    rw [SetFontSize, if_neg hc]

/-- Witness for C4: a valid call `(3,4)` stores the size and emits the
packed byte; an invalid call `(0,9)` is a silent no-op. -/
theorem setFontSize_behavior_witness :
    SetFontSize 3 4 initState =
      ({ initState with width := 3, height := 4 },
        [0x1D, 0x21, ((3 - 1) <<< 4) ||| (4 - 1)])
    ∧ SetFontSize 0 9 initState = (initState, []) :=
  ⟨(setFontSize_behavior 3 4 initState).1 (by decide),
   (setFontSize_behavior 0 9 initState).2 (by decide)⟩

/-- C5 counterexample: at `format = 69` (which "does not exceed 69", so the
claim demands the NUL-terminated framing) `Barcode` emits *no* `GS k`
framing at all — the output after the centering command is just the raw
payload, and the framing lead byte `0x1D` never occurs. -/
theorem barcode_framing_counterexample :
    (Barcode [0x41] 69 initState).2 = [0x1B, 0x61, 0x01, 0x41]
    ∧ 0x1D ∉ (Barcode [0x41] 69 initState).2 := by decide

/-- C5 as amended: the length-prefixed framing is emitted exactly when
`format > 69`, the NUL-terminated framing exactly when `format < 69`, and
no framing at all when `format = 69`; the raw payload always follows. -/
theorem barcode_framing_amended (format : Int) (bc : List Nat) (s : PState)
    (hbc : bc ≠ []) :
    (Barcode bc format s).2 =
      SetAlign "center"
      ++ (if 69 < format then
            [0x1D, 0x6B] ++ barcodeCode format ++ decAscii bc.length ++ bc
          else if format < 69 then
            [0x1D, 0x6B] ++ barcodeCode format ++ bc ++ [0x00]
          else [])
      ++ bc := rfl

/-- Witness for C5 (amended) at CODE93 (`format = 73 > 69`, length-prefixed)
with payload `"5"`. -/
theorem barcode_framing_amended_witness :
    (Barcode [0x35] 73 initState).2 =
      [0x1B, 0x61, 0x01, 0x1D, 0x6B, 0x49, 0x31, 0x35, 0x35] := by
  rw [barcode_framing_amended 73 [0x35] initState (by decide)]
  decide

/-- C8 counterexample: `SetUnderline` performs no validation — the
out-of-domain toggle value 2 is stored in the state. -/
theorem setter_validation_counterexample :
    (SetUnderline 2 initState).1.underline = 2 ∧ ¬(2 = 0 ∨ 2 = 1) := by decide

/-- C8 as amended: only `setFontSize` validates its input (out-of-range
dimensions leave the state unchanged and emit nothing); the six toggle
setters store any value unvalidated, including values outside `{0,1}`. -/
theorem setter_validation_amended (v w h : Nat) (s : PState)
    (hwh : ¬(0 < w ∧ 0 < h ∧ w ≤ 8 ∧ h ≤ 8)) :
    (SetUnderline v s).1.underline = v
    ∧ (SetEmphasize v s).1.emphasize = v
    ∧ (SetUpsidedown v s).1.upsidedown = v
    ∧ (SetRotate v s).1.rotate = v
    ∧ (SetReverse v s).1.reverse = v
    ∧ (SetSmooth v s).1.smooth = v
    ∧ SetFontSize w h s = (s, []) :=
  ⟨rfl, rfl, rfl, rfl, rfl, rfl, by rw [SetFontSize, if_neg hwh]⟩

/-- Witness for C8 (amended) at the invalid toggle value 2 and the invalid
font size `9 × 0`. -/
theorem setter_validation_amended_witness :
    (SetUnderline 2 initState).1.underline = 2
    ∧ (SetEmphasize 2 initState).1.emphasize = 2
    ∧ (SetUpsidedown 2 initState).1.upsidedown = 2
    ∧ (SetRotate 2 initState).1.rotate = 2
    ∧ (SetReverse 2 initState).1.reverse = 2
    ∧ (SetSmooth 2 initState).1.smooth = 2
    ∧ SetFontSize 9 0 initState = (initState, []) :=
  setter_validation_amended 2 9 0 initState (by decide)

/-- C9: every style setter is idempotent — a second identical call returns
the same state and emits the same command frame as the first. -/
theorem style_setters_idempotent (v w h : Nat) (s : PState) :
    SetUnderline v (SetUnderline v s).1 = SetUnderline v s
    ∧ SetEmphasize v (SetEmphasize v s).1 = SetEmphasize v s
    ∧ SetUpsidedown v (SetUpsidedown v s).1 = SetUpsidedown v s
    ∧ SetRotate v (SetRotate v s).1 = SetRotate v s
    ∧ SetReverse v (SetReverse v s).1 = SetReverse v s
    ∧ SetSmooth v (SetSmooth v s).1 = SetSmooth v s
    ∧ SetFontSize w h (SetFontSize w h s).1 = SetFontSize w h s := by
  refine ⟨rfl, rfl, rfl, rfl, rfl, rfl, ?_⟩
  by_cases hc : 0 < w ∧ 0 < h ∧ w ≤ 8 ∧ h ≤ 8
  · simp only [SetFontSize, if_pos hc]
  · simp only [SetFontSize, if_neg hc]

/-- C10: for `format < 69` the payload bytes appear twice — once inside the
NUL-terminated framing and once as the unconditional trailing write; for
`format = 69` no framing is emitted, only the trailing payload write. -/
theorem barcode_payload_duplication (format : Int) (bc : List Nat) (s : PState) :
    (format < 69 →
      (Barcode bc format s).2 =
        SetAlign "center"
        ++ ([0x1D, 0x6B] ++ barcodeCode format ++ bc ++ [0x00]) ++ bc)
    ∧ (format = 69 → (Barcode bc format s).2 = SetAlign "center" ++ bc) := by
  constructor
  · intro hlt
    simp only [Barcode]
    rw [if_neg (by omega), if_pos hlt]
  · intro heq
    subst heq
    rfl

/-- Witness for C10 at ITF (`format = 4`) and at the dead value 69. -/
theorem barcode_payload_duplication_witness :
    (Barcode [0x31] 4 initState).2 =
      SetAlign "center"
      ++ ([0x1D, 0x6B] ++ barcodeCode 4 ++ [0x31] ++ [0x00]) ++ [0x31]
    ∧ (Barcode [0x31] 69 initState).2 = SetAlign "center" ++ [0x31] :=
  ⟨(barcode_payload_duplication 4 [0x31] initState).1 (by decide),
   (barcode_payload_duplication 69 [0x31] initState).2 rfl⟩

/-! ### Lemmas about `Text`'s error handling (claim C6) -/

theorem stepFont_isSome (ps : Params) (q : PState × List Nat) (hf : fontOk ps) :
    ∃ q', stepFont ps q = some q' := by
  unfold stepFont
  cases hlk : List.lookup "font" ps with
  | none => exact ⟨q, rfl⟩
  | some f =>
    refine ⟨(q.1, q.2 ++ stepFontCmd ((strBytes f).getD 5 0)), ?_⟩
    show (if 6 ≤ (strBytes f).length then
        some (q.1, q.2 ++ stepFontCmd ((strBytes f).getD 5 0))
      else none) = _
    rw [if_pos (hf f hlk)]

theorem textPre_isSome (ps : Params) (s : PState) (hf : fontOk ps) :
    ∃ q, textPre ps s = some q := by
  simp only [textPre]
  obtain ⟨q', hq⟩ := stepFont_isSome ps
    (stepFlag ps "rotate" SetRotate
      (stepFlag ps "reverse" SetReverse
        (stepFlag ps "ul" SetUnderline
          (stepFlag ps "em" SetEmphasize
            (stepFlag ps "smooth" SetSmooth
              (stepLang ps (stepAlign ps (s, [])))))))) hf
  rw [hq]
  exact ⟨_, rfl⟩

theorem numApply_err (ps : Params) (key : String)
    (act : Int → PState → PState × List Nat) (q : PState × List Nat)
    (v : String) (h1 : List.lookup key ps = some v) (h2 : goAtoi v = none) :
    numApply ps key act q = (q, true) := by
  unfold numApply
  rw [h1]
  show (match goAtoi v with
    | some i =>
      let r := act i q.1
      ((r.1, q.2 ++ r.2), false)
    | none => (q, true)) = (q, true)
  rw [h2]

theorem numApply_ok (ps : Params) (key : String)
    (act : Int → PState → PState × List Nat) (q : PState × List Nat)
    (h : ¬∃ v, List.lookup key ps = some v ∧ goAtoi v = none) :
    (numApply ps key act q).2 = false := by
  unfold numApply
  cases hlk : List.lookup key ps with
  | none => rfl
  | some v =>
    dsimp only
    cases hv : goAtoi v with
    | some i => rfl
    | none => exact absurd ⟨v, hlk, hv⟩ h

theorem numChain_eq_numSeq (ps : Params) (q : PState × List Nat) :
    numChain ps q = numSeq numKeys ps q := by
  simp only [numChain, numKeys, numSeq]
  cases e1 : (numApply ps "width" actWidth q).2 with
  | true => simp only [e1, if_true]
  | false =>
    simp only [e1, Bool.false_eq_true, if_false]
    cases e2 : (numApply ps "height" actHeight
        (numApply ps "width" actWidth q).1).2 with
    | true => simp only [e2, if_true]
    | false =>
      simp only [e2, Bool.false_eq_true, if_false]
      cases e3 : (numApply ps "x" actX
          (numApply ps "height" actHeight
            (numApply ps "width" actWidth q).1).1).2 with
      | true => simp only [e3, if_true]
      | false =>
        simp only [e3, Bool.false_eq_true, if_false]
        cases e4 : (numApply ps "y" actY
            (numApply ps "x" actX
              (numApply ps "height" actHeight
                (numApply ps "width" actWidth q).1).1).1).2 with
        | true => simp only [e4, if_true]; exact Prod.ext rfl e4
        | false => simp only [e4, Bool.false_eq_true, if_false]; exact Prod.ext rfl e4

theorem numSeq_first_err (keys : List (String × (Int → PState → PState × List Nat)))
    (ps : Params) :
    ∀ q : PState × List Nat,
      (∃ ka ∈ keys, ∃ v, List.lookup ka.1 ps = some v ∧ goAtoi v = none) →
      ∃ done k act rest,
        keys = done ++ (k, act) :: rest
        ∧ (∃ v, List.lookup k ps = some v ∧ goAtoi v = none)
        ∧ (∀ p ∈ done, ∀ v, List.lookup p.1 ps = some v → goAtoi v ≠ none)
        ∧ numSeq keys ps q = ((numSeq done ps q).1, true) := by
  induction keys with
  | nil =>
    intro q hmem
    obtain ⟨ka, hka, _⟩ := hmem
    exact absurd hka (List.not_mem_nil ka)
  | cons hd rest ih =>
    intro q hmem
    obtain ⟨k0, act0⟩ := hd
    by_cases hbad : ∃ v, List.lookup k0 ps = some v ∧ goAtoi v = none
    · obtain ⟨v, hlk, hv⟩ := hbad
      refine ⟨[], k0, act0, rest, rfl, ⟨v, hlk, hv⟩, by simp, ?_⟩
      have herr := numApply_err ps k0 act0 q v hlk hv
      simp [numSeq, herr]
    · have hok : (numApply ps k0 act0 q).2 = false := numApply_ok ps k0 act0 q hbad
      obtain ⟨ka, hka, v, hlk, hv⟩ := hmem
      have hka' : ka ∈ rest := by
        rcases List.mem_cons.mp hka with h | h
        · exfalso; exact hbad (by subst h; exact ⟨v, hlk, hv⟩)
        · exact h
      obtain ⟨done', k, act, rest', heq, hbadk, hgood, hrec⟩ :=
        ih (numApply ps k0 act0 q).1 ⟨ka, hka', v, hlk, hv⟩
      refine ⟨(k0, act0) :: done', k, act, rest', by rw [heq]; rfl, hbadk, ?_, ?_⟩
      · intro p hp v' hl hv'
        rcases List.mem_cons.mp hp with h | h
        · exact hbad (by subst h; exact ⟨v', hl, hv'⟩)
        · exact hgood p h v' hl hv'
      · show numSeq ((k0, act0) :: rest) ps q
          = ((numSeq ((k0, act0) :: done') ps q).1, true)
        simp only [numSeq, hok, Bool.false_eq_true, if_false]
        exact hrec

/-! ### Claim theorem C6 -/

/-- C6 counterexample: with `params = {align: left, width: abc}` and empty
text, `Text` does return the error, but the alignment command bytes were
already written to the sink before the malformed `width` was examined —
the operation is not aborted "before any byte is written". -/
theorem text_abort_counterexample :
    Text [("align", "left"), ("width", "abc")] "" (fun _ => []) initState
      = some (initState, [0x1B, 0x61, 0x00], true)
    ∧ ([0x1B, 0x61, 0x00] : List Nat) ≠ [] := by decide

/-- C6 as amended: a malformed numeric parameter (non-integer `width`,
`height`, `x` or `y`) always makes `Text` return the error, and the bytes
on the sink are then exactly the pre-numeric parameter commands (`textPre`)
followed by the commands of the numeric parameters strictly before the
first malformed one (`numSeq done`, where `numKeys = done ++ (k, act) ::
rest` and `k` is the first numeric key that fails to parse) — so neither
the text itself nor any parameter command at or after the malformed one is
ever written, and the result does not depend on the text-rendering
collaborator at all.  Bytes of parameters processed earlier in the fixed
order are on the wire, refuting only the original "before any byte"
wording.  (The `fontOk` hypothesis excludes the independent panic on a
`font` value shorter than 6 bytes, which aborts `Text` before the numeric
parameters are reached.) -/
theorem text_malformed_numeric_aborts (ps : Params) (t : String) (s : PState)
    (hf : fontOk ps) (hm : malformedNumeric ps) :
    ∃ q done k act rest,
      textPre ps s = some q
      ∧ numKeys = done ++ (k, act) :: rest
      ∧ (∃ v, List.lookup k ps = some v ∧ goAtoi v = none)
      ∧ (∀ p ∈ done, ∀ v, List.lookup p.1 ps = some v → goAtoi v ≠ none)
      ∧ ∀ render : String → List Nat,
          Text ps t render s =
            some ((numSeq done ps q).1.1, (numSeq done ps q).1.2, true) := by
  obtain ⟨q, hq⟩ := textPre_isSome ps s hf
  have hmem : ∃ ka ∈ numKeys, ∃ v, List.lookup ka.1 ps = some v ∧ goAtoi v = none := by
    obtain ⟨k, v, hk, hlk, hv⟩ := hm
    rcases hk with hk | hk | hk | hk <;> subst hk
    · exact ⟨("width", actWidth), by simp [numKeys], v, hlk, hv⟩
    · exact ⟨("height", actHeight), by simp [numKeys], v, hlk, hv⟩
    · exact ⟨("x", actX), by simp [numKeys], v, hlk, hv⟩
    · exact ⟨("y", actY), by simp [numKeys], v, hlk, hv⟩
  obtain ⟨done, k, act, rest, heq, hbad, hgood, hrec⟩ :=
    numSeq_first_err numKeys ps q hmem
  refine ⟨q, done, k, act, rest, hq, heq, hbad, hgood, ?_⟩
  intro render
  have hch : numChain ps q = ((numSeq done ps q).1, true) := by
    rw [numChain_eq_numSeq]; exact hrec
  simp only [Text, hq, hch, if_true]

/-- Witness for C6 (amended): `params = {width: abc}` on a fresh printer. -/
theorem text_malformed_numeric_aborts_witness :
    ∃ q done k act rest,
      textPre [("width", "abc")] initState = some q
      ∧ numKeys = done ++ (k, act) :: rest
      ∧ (∃ v, List.lookup k [("width", "abc")] = some v ∧ goAtoi v = none)
      ∧ (∀ p ∈ done, ∀ v, List.lookup p.1 [("width", "abc")] = some v →
          goAtoi v ≠ none)
      ∧ ∀ render : String → List Nat,
          Text [("width", "abc")] "hello" render initState =
            some ((numSeq done [("width", "abc")] q).1.1,
              (numSeq done [("width", "abc")] q).1.2, true) :=
  text_malformed_numeric_aborts [("width", "abc")] "hello" initState
    (fun f h => by simp [List.lookup] at h)
    ⟨"width", "abc", Or.inl rfl, rfl, by decide⟩

/-! ### Lemmas for the font-metrics invariant (claim C7) -/

theorem fontInv_initState : FontInv initState := by
  unfold FontInv
  decide

theorem fontInv_setFontSize (w h : Nat) (s : PState) (hs : FontInv s) :
    FontInv (SetFontSize w h s).1 := by
  rw [SetFontSize]
  split
  · rename_i hc
    exact ⟨hc.1, hc.2.2.1, hc.2.1, hc.2.2.2⟩
  · exact hs

theorem stepAlign_state (ps : Params) (q : PState × List Nat) :
    (stepAlign ps q).1 = q.1 := by
  unfold stepAlign
  cases List.lookup "align" ps <;> rfl

theorem stepLang_state (ps : Params) (q : PState × List Nat) :
    (stepLang ps q).1 = q.1 := by
  unfold stepLang
  cases List.lookup "lang" ps <;> rfl

theorem fontInv_stepFlag (ps : Params) (key : String)
    (set : Nat → PState → PState × List Nat)
    (hpres : ∀ v s, FontInv s → FontInv (set v s).1)
    (q : PState × List Nat) (hq : FontInv q.1) :
    FontInv (stepFlag ps key set q).1 := by
  unfold stepFlag
  cases List.lookup key ps with
  | none => exact hq
  | some v =>
    dsimp only
    split
    · exact hpres 1 q.1 hq
    · exact hq

theorem stepFont_state (ps : Params) (q q' : PState × List Nat)
    (h : stepFont ps q = some q') : q'.1 = q.1 := by
  unfold stepFont at h
  cases hlk : List.lookup "font" ps with
  | none =>
    simp only [hlk] at h
    injection h with h2
    subst h2
    rfl
  | some f =>
    simp only [hlk] at h
    split at h
    · injection h with h2
      subst h2
      rfl
    · simp at h

theorem fontInv_stepDw (ps : Params) (q : PState × List Nat) (hq : FontInv q.1) :
    FontInv (stepDw ps q).1 := by
  unfold stepDw
  cases List.lookup "dw" ps with
  | none => exact hq
  | some v =>
    dsimp only
    split
    · exact fontInv_setFontSize 2 q.1.height q.1 hq
    · exact hq

theorem fontInv_stepDh (ps : Params) (q : PState × List Nat) (hq : FontInv q.1) :
    FontInv (stepDh ps q).1 := by
  unfold stepDh
  cases List.lookup "dh" ps with
  | none => exact hq
  | some v =>
    dsimp only
    split
    · exact fontInv_setFontSize q.1.width 2 q.1 hq
    · exact hq

theorem fontInv_textPre (ps : Params) (s : PState) (q : PState × List Nat)
    (h : textPre ps s = some q) (hs : FontInv s) : FontInv q.1 := by
  simp only [textPre] at h
  have h7 : FontInv (stepFlag ps "rotate" SetRotate
      (stepFlag ps "reverse" SetReverse
        (stepFlag ps "ul" SetUnderline
          (stepFlag ps "em" SetEmphasize
            (stepFlag ps "smooth" SetSmooth
              (stepLang ps (stepAlign ps (s, [])))))))).1 := by
    refine fontInv_stepFlag ps "rotate" SetRotate (fun v s h => h) _ ?_
    refine fontInv_stepFlag ps "reverse" SetReverse (fun v s h => h) _ ?_
    refine fontInv_stepFlag ps "ul" SetUnderline (fun v s h => h) _ ?_
    refine fontInv_stepFlag ps "em" SetEmphasize (fun v s h => h) _ ?_
    refine fontInv_stepFlag ps "smooth" SetSmooth (fun v s h => h) _ ?_
    rw [stepLang_state, stepAlign_state]
    exact hs
  cases hf : stepFont ps (stepFlag ps "rotate" SetRotate
      (stepFlag ps "reverse" SetReverse
        (stepFlag ps "ul" SetUnderline
          (stepFlag ps "em" SetEmphasize
            (stepFlag ps "smooth" SetSmooth
              (stepLang ps (stepAlign ps (s, [])))))))) with
  | none => rw [hf] at h; simp at h
  | some q8 =>
    rw [hf] at h
    simp only [Option.some.injEq] at h
    subst h
    have h8 : FontInv q8.1 := by
      rw [stepFont_state ps _ q8 hf]
      exact h7
    exact fontInv_stepDh ps _ (fontInv_stepDw ps q8 h8)

theorem fontInv_numApply (ps : Params) (key : String)
    (act : Int → PState → PState × List Nat)
    (hact : ∀ i s, FontInv s → FontInv (act i s).1)
    (q : PState × List Nat) (hq : FontInv q.1) :
    FontInv (numApply ps key act q).1.1 := by
  unfold numApply
  cases List.lookup key ps with
  | none => exact hq
  | some v =>
    dsimp only
    cases goAtoi v with
    | some i => exact hact i q.1 hq
    | none => exact hq

theorem fontInv_numChain (ps : Params) (q : PState × List Nat)
    (hq : FontInv q.1) : FontInv (numChain ps q).1.1 := by
  simp only [numChain]
  have h1 := fontInv_numApply ps "width" actWidth
    (fun i s h => fontInv_setFontSize _ _ s h) q hq
  cases e1 : (numApply ps "width" actWidth q).2 with
  | true => simp only [e1, if_true]; exact h1
  | false =>
    simp only [e1, Bool.false_eq_true, if_false]
    have h2 := fontInv_numApply ps "height" actHeight
      (fun i s h => fontInv_setFontSize _ _ s h) _ h1
    cases e2 : (numApply ps "height" actHeight
        (numApply ps "width" actWidth q).1).2 with
    | true => simp only [e2, if_true]; exact h2
    | false =>
      simp only [e2, Bool.false_eq_true, if_false]
      have h3 := fontInv_numApply ps "x" actX (fun i s h => h) _ h2
      cases e3 : (numApply ps "x" actX
          (numApply ps "height" actHeight
            (numApply ps "width" actWidth q).1).1).2 with
      | true => simp only [e3, if_true]; exact h3
      | false =>
        simp only [e3, Bool.false_eq_true, if_false]
        exact fontInv_numApply ps "y" actY (fun i s h => h) _ h3

theorem fontInv_text (ps : Params) (t : String) (render : String → List Nat)
    (s s' : PState) (out : List Nat) (e : Bool)
    (h : Text ps t render s = some (s', out, e)) (hs : FontInv s) :
    FontInv s' := by
  unfold Text at h
  cases hpre : textPre ps s with
  | none => rw [hpre] at h; simp at h
  | some q =>
    simp only [hpre] at h
    have hq := fontInv_textPre ps s q hpre hs
    have hn := fontInv_numChain ps q hq
    split at h <;> · injection h with h2; injection h2 with h3 h4; subst h3; exact hn

theorem fontInv_feed (ps : Params) (s : PState) (hs : FontInv s) :
    FontInv (Feed ps s).1 := by
  unfold Feed
  cases List.lookup "line" ps with
  | none =>
    dsimp only
    cases List.lookup "unit" ps with
    | none => exact fontInv_initState
    | some v =>
      dsimp only
      cases goAtoi v with
      | some i => exact fontInv_initState
      | none => exact hs
  | some v =>
    dsimp only
    cases goAtoi v with
    | none => exact hs
    | some i =>
      dsimp only
      cases List.lookup "unit" ps with
      | none => exact fontInv_initState
      | some v2 =>
        dsimp only
        cases goAtoi v2 with
        | some i2 => exact fontInv_initState
        | none => exact hs

/-! ### Claim theorem C7 -/

/-- C7: in every printer state reachable from `NewPrinter` by any sequence
of the exported operations, the stored font width and height are in `[1,8]`
(in particular both are ≥ 1). -/
theorem printer_font_invariant (s : PState) (h : Reachable s) : FontInv s := by
  induction h with
  | new => exact fontInv_initState
  | reset _ _ => exact fontInv_initState
  | initc _ _ => exact fontInv_initState
  | setFontSize w hgt _ ih => exact fontInv_setFontSize w hgt _ ih
  | setUnderline v _ ih => exact ih
  | setEmphasize v _ ih => exact ih
  | setUpsidedown v _ ih => exact ih
  | setRotate v _ ih => exact ih
  | setReverse v _ ih => exact ih
  | setSmooth v _ ih => exact ih
  | text ps t render _ heq ih => exact fontInv_text ps t render _ _ _ _ heq ih
  | feed ps _ ih => exact fontInv_feed ps _ ih
  | barcode bc fm _ _ => exact fontInv_initState

/-- Witness for C7: the invariant holds in the state left behind by a
`Feed` on a fresh printer. -/
theorem printer_font_invariant_witness : FontInv (Feed [] initState).1 :=
  printer_font_invariant (Feed [] initState).1
    (Reachable.feed [] Reachable.new)

end Goescpos
